import Mathlib

/-!
Verification of the asynchronous pin-operation core of `embedded-platform`.

The source under study is `src/gpio/set.rs`, the `Set` future that adapts a
single `OutputPin::poll_set` capability call into the cooperative-task
contract, together with the spec-level components (Ownership Registry,
Wake-Source Bridge, Change-Event Sequence) whose code is not part of the
provided sources and is therefore modelled from the specification text.
-/

namespace EmbeddedPlatform

/-- Result of polling a future once: either completed with a value, or
pending (the waker has been registered and the task suspends). This models
Rust's `core::task::Poll`. -/
inductive Poll (α : Type) where
  | ready : α → Poll α
  | pending : Poll α
  deriving Repr, DecidableEq

variable {σ ε Ctx : Type}

/-- An output-pin capability trait, modelling `gpio::OutputPin`: `σ` is the
hardware state reachable through the exclusive borrow of the pin, `ε` the
hardware error type, `Ctx` the scheduler wake context.  `poll_set` attempts
one step of driving the pin to the requested level and returns the poll
result together with the possibly mutated hardware state. -/
structure OutputPin (σ ε Ctx : Type) where
  poll_set : Ctx → σ → Bool → Poll (Except ε Unit) × σ

namespace Gpio

/-- The `Set` struct of `src/gpio/set.rs`: it pairs the exclusively borrowed
pin (modelled by the owned hardware state the borrow reaches) with the stored
target level `high`.  It has no other fields. -/
structure Set (σ : Type) where
  pin : σ
  high : Bool
  deriving Repr, DecidableEq

/-- The free function `set` of `src/gpio/set.rs`: it merely stores the borrow
and the level; no capability-trait method is invoked and the hardware state
is untouched. -/
def set (pin : σ) (high : Bool) : Set σ :=
  { pin := pin, high := high }

/-- The `Future::poll` implementation for `Set` in `src/gpio/set.rs`: it
forwards the poll to `poll_set` on the borrowed pin, passing the
scheduler-supplied context and the stored level, threads the mutated hardware
state back through the borrow, and returns the poll result unchanged. -/
def Set.poll (A : OutputPin σ ε Ctx) (s : Set σ) (cx : Ctx) :
    Poll (Except ε Unit) × Set σ :=
  let r := A.poll_set cx s.pin s.high
  (r.1, { s with pin := r.2 })

/-- Spec-side description of the wrapper poll (spec section 4.2): on each scheduler
poll the result reported to the scheduler is exactly the value of the
underlying capability-trait call `A::poll_set(cx, high)`, with Ready/Pending
reported unchanged. -/
def specForwardedPoll (A : OutputPin σ ε Ctx) (s : Set σ) (cx : Ctx) :
    Poll (Except ε Unit) :=
  (A.poll_set cx s.pin s.high).1

/-- Repeatedly poll the same `Set` wrapper `n` times, threading the wrapper
(and hence the borrowed hardware state) through each poll. -/
def Set.pollIter (A : OutputPin σ ε Ctx) (cx : Ctx) : Nat → Set σ → Set σ
  | 0, s => s
  | n + 1, s => Set.pollIter A cx n (Set.poll A s cx).2

end Gpio

/-- A concrete output pin used to instantiate witnesses: its hardware state
is the current level, and `poll_set` always completes immediately, recording
the requested level. -/
def testPin : OutputPin Bool Unit Unit :=
  { poll_set := fun _ _ high => (Poll.ready (Except.ok ()), high) }

/-- Modelled from the spec: the Pin/Resource Ownership Registry of section
4.3 is not among the provided sources; per the spec it is a process-wide
table of boolean claimed flags, one per physical resource, indexed here by a
natural-number resource id. -/
structure Registry where
  claimed : Nat → Bool

/-- Modelled from the spec: `claim(resource_id) -> Option<Handle>` returns a
handle (modelled by the resource id) on the first call for a given resource,
setting its claimed flag, and returns the terminal already-claimed
indication `none` — a value, not an exception — whenever the flag is already
set. -/
def claim (r : Registry) (id : Nat) : Option Nat × Registry :=
  if r.claimed id then (none, r)
  else (some id, ⟨fun j => if j = id then true else r.claimed j⟩)

/-- Sequential application of a list of claim operations to the registry,
modelling an arbitrary sequence of further construction-time claims. -/
def claimAll (r : Registry) : List Nat → Registry
  | [] => r
  | id :: ids => claimAll (claim r id).2 ids

/-- The registry in which no resource has been claimed yet. -/
def emptyRegistry : Registry :=
  ⟨fun _ => false⟩

/-- Modelled from the spec: the Wake-Source Bridge of section 4.4 is not
among the provided sources; per the spec each watched resource has a single
slot holding at most one pending wake-notifier.  `register` stores the
notifier, overwriting any prior unfired one (last-registrant-wins). -/
def register {W : Type} (_slot : Option W) (w : W) : Option W :=
  some w

/-- Modelled from the spec: `fire` retrieves and invokes the stored notifier
exactly once and clears the slot; with no registered notifier it is a no-op
(the event is dropped, not queued).  The first component lists the notifiers
invoked by this call, the second is the slot afterwards. -/
def fire {W : Type} (slot : Option W) : List W × Option W :=
  match slot with
  | none => ([], none)
  | some w => ([w], none)

/-- Direction of a pin-level transition emitted by the change sequence. -/
inductive Edge where
  | rising
  | falling
  deriving Repr, DecidableEq

/-- Modelled from the spec: the Change-Event Sequence of section 4.5 is not
among the provided sources; per the spec, after the bridge fires, the pin
level is re-read exactly once and compared with the most recently observed
level: an unchanged level emits no transition (spurious-edge filtering),
while a changed level emits the corresponding edge and updates the
remembered level. -/
def changeStep (last newLevel : Bool) : Option Edge × Bool :=
  if newLevel = last then (none, last)
  else if newLevel then (some Edge.rising, newLevel)
  else (some Edge.falling, newLevel)

end EmbeddedPlatform

namespace EmbeddedPlatform

section Claims

variable {σ ε Ctx : Type}

/-- C1: for every output pin capability `A`, stored input `high` (inside the
wrapper `s`) and wake context `cx`, polling the `Set` wrapper returns exactly
the value of the underlying `A.poll_set cx s.pin s.high` call — Ready(Ok),
Ready(Err) and Pending alike are reported unchanged — and the only state
touched is the hardware state threaded through the borrow. -/
theorem set_poll_refines (A : OutputPin σ ε Ctx) (s : Gpio.Set σ) (cx : Ctx) :
    (Gpio.Set.poll A s cx).1 = Gpio.specForwardedPoll A s cx ∧
    (Gpio.Set.poll A s cx).2.pin = (A.poll_set cx s.pin s.high).2 := by
  exact ⟨rfl, rfl⟩

/-- C2: constructing the wrapper via `set pin high` performs no work: it
invokes no capability-trait method (the definition of `set` does not even
take the `OutputPin` capability as an argument), and the returned value's
fields are exactly the arguments given, the hardware state unchanged. -/
theorem set_construction_stores_arguments (pin : σ) (high : Bool) :
    Gpio.set pin high = { pin := pin, high := high } ∧
    (Gpio.set pin high).pin = pin ∧ (Gpio.set pin high).high = high := by
  exact ⟨rfl, rfl, rfl⟩

/-- C3: the `Set` wrapper originates no errors of its own: a poll yields
`Ready(Err e)` if and only if the underlying `A.poll_set` call yielded
`Ready(Err e)` with the same error value. -/
theorem set_poll_error_passthrough (A : OutputPin σ ε Ctx) (s : Gpio.Set σ)
    (cx : Ctx) (e : ε) :
    (Gpio.Set.poll A s cx).1 = Poll.ready (Except.error e) ↔
      (A.poll_set cx s.pin s.high).1 = Poll.ready (Except.error e) := by
  exact Iff.rfl

lemma pollIter_high (A : OutputPin σ ε Ctx) (cx : Ctx) :
    ∀ (n : Nat) (s : Gpio.Set σ),
      (Gpio.Set.pollIter A cx n s).high = s.high := by
  intro n
  induction n with
  | zero => intro s; rfl
  | succ n ih =>
      intro s
      simpa [Gpio.Set.pollIter, Gpio.Set.poll] using ih (Gpio.Set.poll A s cx).2

/-- C4: polling never modifies the wrapper's own `high` field: a single poll
leaves it unchanged, and after any number of repeated polls the stored input
is still the original one, so every subsequent poll passes that same original
`high` value to `poll_set`. -/
theorem set_poll_preserves_high (A : OutputPin σ ε Ctx) (s : Gpio.Set σ)
    (cx : Ctx) (n : Nat) :
    (Gpio.Set.poll A s cx).2.high = s.high ∧
    (Gpio.Set.pollIter A cx n s).high = s.high ∧
    (Gpio.Set.poll A (Gpio.Set.pollIter A cx n s) cx).1 =
      (A.poll_set cx (Gpio.Set.pollIter A cx n s).pin s.high).1 := by
  refine ⟨rfl, pollIter_high A cx n s, ?_⟩
  simp [Gpio.Set.poll, pollIter_high A cx n s]

/-- C10: the completed value of the output-set operation carries no payload:
the output type is `Result ((), Error)`, so whenever a poll completes
successfully the result is exactly `Ready (Ok ())`. -/
theorem set_output_unit (A : OutputPin σ ε Ctx) (s : Gpio.Set σ) (cx : Ctx)
    (u : Unit)
    (h : (Gpio.Set.poll A s cx).1 = Poll.ready (Except.ok u)) :
    (Gpio.Set.poll A s cx).1 = Poll.ready (Except.ok ()) := by
  rw [h]

/-- C10 witness: on the concrete always-ready test pin, the hypothesis holds
and the successful completion is exactly `Ready (Ok ())`. -/
theorem set_output_unit_witness :
    (Gpio.Set.poll testPin (Gpio.set false true) ()).1 =
      Poll.ready (Except.ok ()) :=
  set_output_unit testPin (Gpio.set false true) () () rfl

lemma claim_preserves_claimed (r : Registry) (id j : Nat)
    (h : r.claimed j = true) : (claim r id).2.claimed j = true := by
  unfold claim
  by_cases hc : r.claimed id
  · simp [hc, h]
  · by_cases hj : j = id <;> simp [hc, hj, h]

lemma claimAll_preserves_claimed (ids : List Nat) :
    ∀ (r : Registry) (j : Nat), r.claimed j = true →
      (claimAll r ids).claimed j = true := by
  induction ids with
  | nil => intro r j h; exact h
  | cons id ids ih =>
      intro r j h
      exact ih (claim r id).2 j (claim_preserves_claimed r id j h)

lemma claim_of_claimed (r : Registry) (id : Nat) (h : r.claimed id = true) :
    (claim r id).1 = none := by
  simp [claim, h]

/-- C6: for an unclaimed resource id, the first `claim` returns a handle, and
after any further sequence of claim operations, claiming the same id again
deterministically returns the already-claimed indication `none` — regardless
of whether the first handle is still held (the registry keeps no reference to
it). -/
theorem claim_first_then_always_conflict (r : Registry) (id : Nat)
    (ids : List Nat) (h : r.claimed id = false) :
    (claim r id).1 = some id ∧
    (claim (claimAll (claim r id).2 ids) id).1 = none := by
  constructor
  · simp [claim, h]
  · have h1 : (claim r id).2.claimed id = true := by simp [claim, h]
    exact claim_of_claimed _ id (claimAll_preserves_claimed ids (claim r id).2 id h1)

/-- C6 witness: on the empty registry, claiming resource 5 yields the handle,
and after further claims of 3, 5 and 7 a repeated claim of 5 yields `none`. -/
theorem claim_first_then_always_conflict_witness :
    emptyRegistry.claimed 5 = false ∧
    ((claim emptyRegistry 5).1 = some 5 ∧
      (claim (claimAll (claim emptyRegistry 5).2 [3, 5, 7]) 5).1 = none) :=
  ⟨rfl, claim_first_then_always_conflict emptyRegistry 5 [3, 5, 7] rfl⟩

/-- C7: every Ownership Registry entry is monotone: a claimed flag, once set,
is never reverted by any single further claim nor by any sequence of claim
operations (there is no release or reclaim operation in the model, matching
the spec), so each flag transitions at most once, from unclaimed to
claimed. -/
theorem registry_claimed_monotone (r : Registry) (id j : Nat)
    (ids : List Nat) (h : r.claimed j = true) :
    (claim r id).2.claimed j = true ∧
    (claimAll r ids).claimed j = true :=
  ⟨claim_preserves_claimed r id j h, claimAll_preserves_claimed ids r j h⟩

/-- C7 witness: after claiming resource 2, its flag is set, and it remains
set after a further claim of 9 and after the claim sequence 1, 2, 3. -/
theorem registry_claimed_monotone_witness :
    (claim emptyRegistry 2).2.claimed 2 = true ∧
    ((claim (claim emptyRegistry 2).2 9).2.claimed 2 = true ∧
      (claimAll (claim emptyRegistry 2).2 [1, 2, 3]).claimed 2 = true) :=
  ⟨rfl, registry_claimed_monotone (claim emptyRegistry 2).2 9 2 [1, 2, 3] rfl⟩

/-- C8: for every Wake Record slot, `fire` on an empty slot is a no-op that
leaves the slot empty; `fire` after a `register` invokes the stored notifier
exactly once and clears the slot; and a further `fire` before the next
`register` is again a no-op. -/
theorem fire_contract {W : Type} (s : Option W) (w : W) :
    fire (none : Option W) = ([], none) ∧
    fire (register s w) = ([w], none) ∧
    fire (fire (register s w)).2 = (([] : List W), none) :=
  ⟨rfl, rfl, rfl⟩

/-- C9: the Change-Event Sequence filters spurious wake-ups: when the level
re-read after a fire equals the most recently observed level, no transition
event is emitted and the remembered level is unchanged. -/
theorem changeStep_filters_spurious (last newLevel : Bool)
    (h : newLevel = last) :
    (changeStep last newLevel).1 = none ∧
    (changeStep last newLevel).2 = last := by
  constructor <;> simp [changeStep, h]

/-- C9 witness: re-reading the same high level after a fire emits nothing and
keeps the remembered level. -/
theorem changeStep_filters_spurious_witness :
    (true = true) ∧
    ((changeStep true true).1 = none ∧ (changeStep true true).2 = true) :=
  ⟨rfl, changeStep_filters_spurious true true rfl⟩

end Claims

end EmbeddedPlatform
